import Mathlib

/-!
Verification of the KrigingPy ordinary-kriging solver and its variogram model
family, shallowly embedded from `src/model/distribution.py` and
`src/kriging/kriging_ordinary.py`.

The variogram model functions are embedded over `ℝ` (they use `exp`, `cos`,
`sqrt`, `pi`).  The kriging solver pipeline is embedded over `ℚ` so that every
step (neighbor search, radius filtering, system assembly, linear solve) is
executable and concrete scenarios can be evaluated inside proofs.  Machine
floats are modelled by exact arithmetic; `numpy.inf` (the default search
radius and the k-d tree sentinel distance) is modelled by `⊤ : WithTop ℚ`.
-/

namespace KrigingPy

/-! Section: Variogram model family, from `src/model/distribution.py`

Each function takes the parameter list `m` and a distance `d`, exactly as in
the source.  `numpy.piecewise` with the complementary conditions
`[d <= range_, d > range_]` is an if-then-else. -/

/-- Linear model, m is [slope, nugget] (`linear` in distribution.py). -/
noncomputable def linear (m : List ℝ) (d : ℝ) : ℝ :=
  m.getD 0 0 * d + m.getD 1 0

/-- Power model, m is [scale, exponent, nugget] (`power` in distribution.py);
`d**exponent` is real exponentiation. -/
noncomputable def power (m : List ℝ) (d : ℝ) : ℝ :=
  m.getD 0 0 * d ^ (m.getD 1 0) + m.getD 2 0

/-- Gaussian model, m is [psill, range, nugget] (`gaussian` in distribution.py). -/
noncomputable def gaussian (m : List ℝ) (d : ℝ) : ℝ :=
  m.getD 0 0 * (1 - Real.exp (-(d ^ (2:ℕ)) / (m.getD 1 0 * 4 / 7) ^ (2:ℕ))) + m.getD 2 0

/-- Exponential model, m is [psill, range, nugget] (`exponential` in distribution.py). -/
noncomputable def exponential (m : List ℝ) (d : ℝ) : ℝ :=
  m.getD 0 0 * (1 - Real.exp (-d / m.getD 1 0)) + m.getD 2 0

/-- Spherical model, m is [psill, range, nugget] (`spherical` in distribution.py). -/
noncomputable def spherical (m : List ℝ) (d : ℝ) : ℝ :=
  if d ≤ m.getD 1 0 then
    m.getD 0 0 * (3 * d / (2 * m.getD 1 0) - d ^ (3:ℕ) / (2 * m.getD 1 0 ^ (3:ℕ))) + m.getD 2 0
  else m.getD 0 0 + m.getD 2 0

/-- Hole-effect model, m is [psill, range, nugget] (`hole_effect` in distribution.py). -/
noncomputable def hole_effect (m : List ℝ) (d : ℝ) : ℝ :=
  m.getD 0 0 * (1 - (1 - d / (m.getD 1 0 / 3)) * Real.exp (-d / (m.getD 1 0 / 3))) + m.getD 2 0

/-- Circular model, m is [psill, range, nugget] (`circular` in distribution.py).
The source evaluates `NP.cos` (not an inverse cosine) on `d/range`. -/
noncomputable def circular (m : List ℝ) (d : ℝ) : ℝ :=
  if d ≤ m.getD 1 0 then
    m.getD 0 0 * (1 - 2 / Real.pi / Real.cos (d / m.getD 1 0) +
      Real.sqrt (1 - (d / m.getD 1 0) ^ (2:ℕ))) + m.getD 2 0
  else m.getD 0 0 + m.getD 2 0

/-! Section: Error taxonomy of the predict path (spec section 7)

The source signals validation failures by printing a message and returning
`None`, raises `scipy.linalg.LinAlgError` on a singular system, and raises
`AttributeError` when `self.X` is accessed before any fit.  The distinct
failure modes are modelled as an explicit error type. -/

/-- Failure modes of `kriging_ordinary.predict`. -/
inductive KError where
  | dimensionMismatch
  | invalidNeighborCount
  | invalidRadius
  | notFitted
  | singularSystem
  deriving DecidableEq

/-- The ordinary-kriging predictor state from `kriging_ordinary.py`:
the variogram binding (its `predict(distance) -> semivariance` map), the
distance metric used both by the k-d tree query and by `cdist`, the
`_useNugget` flag, the frozen feature count, and the stored observation set
(`self.X`, `self.y`), absent before any fit. -/
structure kriging_ordinary where
  variogram : ℚ → ℚ
  distance : List ℚ → List ℚ → ℚ
  useNugget : Bool
  n_features : ℕ
  fitted : Option (List (List ℚ) × List ℚ)

/-- Constructor state (`__init__`): `n_features = 0`, no observation set. -/
def kriging_init (vario : ℚ → ℚ) (distf : List ℚ → List ℚ → ℚ)
    (useNugget : Bool) : kriging_ordinary :=
  { variogram := vario, distance := distf, useNugget := useNugget,
    n_features := 0, fitted := none }

/-- The `fit` method: requires `len(X) == len(y)` (else the source raises),
stores the observation set and freezes the feature count from the width of
the location rows. -/
def kfit (P : kriging_ordinary) (X : List (List ℚ)) (y : List ℚ) :
    Option kriging_ordinary :=
  if X.length ≠ y.length then none
  else some { P with fitted := some (X, y), n_features := (X.getD 0 []).length }

/-- Manhattan (`cityblock`) metric of `scipy.spatial.distance.cdist`; on the
one-feature data of the end-to-end scenarios it coincides with the Euclidean
metric. -/
def cityblock (u v : List ℚ) : ℚ :=
  (List.zipWith (fun a b => |a - b|) u v).sum

/-- Rational shadow of `distribution.linear` for solver scenarios: the
variogram binding `predict` of a fitted linear model applies
`slope * d + nugget` (spec sections 4.1 and 6). -/
def linearQ (m : List ℚ) (d : ℚ) : ℚ :=
  m.getD 0 0 * d + m.getD 1 0

/-- One query of `cKDTree.query(q, k)`: distances of the query point to all
N stored points, sorted ascending, the k nearest kept; when fewer than k
points are stored, the missing slots carry the documented sentinel pair
(infinite distance, index N). -/
def kdtreeQueryPoint (Xd : List (List ℚ)) (distf : List ℚ → List ℚ → ℚ)
    (k : ℕ) (q : List ℚ) : List (WithTop ℚ × ℕ) :=
  (List.insertionSort (fun a b : WithTop ℚ × ℕ => a.1 ≤ b.1)
      ((List.range Xd.length).map
        (fun i => (((distf q (Xd.getD i [])) : WithTop ℚ), i)))).take k
    ++ List.replicate (k - Xd.length) (⊤, Xd.length)

/-- Radius filtering (`predict` lines 269-270): keep the neighbors whose
distance is strictly below the search radius. -/
def neighborhood (radius : WithTop ℚ) (nbrs : List (WithTop ℚ × ℕ)) :
    List (WithTop ℚ × ℕ) :=
  nbrs.filter (fun p => decide (p.1 < radius))

/-- Indices `ni` of the filtered neighbors. -/
def niOf (F : List (WithTop ℚ × ℕ)) : List ℕ := F.map Prod.snd

/-- Distances `nd` of the filtered neighbors (all finite after filtering). -/
def ndOf (F : List (WithTop ℚ × ℕ)) : List ℚ := F.map (fun p => p.1.untop' 0)

/-- Locations of the filtered neighbors, read from the observation set. -/
def nlocsOf (X : List (List ℚ)) (F : List (WithTop ℚ × ℕ)) : List (List ℚ) :=
  (niOf F).map (fun i => X.getD i [])

/-- Square-matrix view of an entry function (indices beyond `n` are never
read). -/
def toMat (n : ℕ) (A : ℕ → ℕ → ℚ) : Matrix (Fin n) (Fin n) ℚ :=
  Matrix.of fun i j => A i.val j.val

/-- Vector view of an entry function. -/
def toVec (n : ℕ) (b : ℕ → ℚ) : Fin n → ℚ := fun i => b i.val

/-- Exact model of `scipy.linalg.solve`: fails if the matrix is singular,
otherwise returns the unique solution `A⁻¹ b` (computed by Cramer's rule). -/
def solveSys (n : ℕ) (A : ℕ → ℕ → ℚ) (b : ℕ → ℚ) : Option (Fin n → ℚ) :=
  if (toMat n A).det = 0 then none
  else some ((toMat n A).det⁻¹ • Matrix.cramer (toMat n A) (toVec n b))

/-- Kriging matrix `a` of `predict` (lines 278-297): the semivariance block
`a[:n,:n]` from the pairwise neighbor distances, the unbiasedness border
`a[:,n] = a[n,:] = 1`, `a[n,n] = 0`, and — when the nugget effect is
disabled — `NP.fill_diagonal(a, 0)`. -/
def buildA (vario : ℚ → ℚ) (distf : List ℚ → List ℚ → ℚ) (useNugget : Bool)
    (nlocs : List (List ℚ)) : ℕ → ℕ → ℚ := fun i j =>
  if i < nlocs.length ∧ j < nlocs.length then
    if useNugget = false ∧ i = j then 0
    else vario (distf (nlocs.getD i []) (nlocs.getD j []))
  else if i = nlocs.length ∧ j = nlocs.length then 0
  else 1

/-- Right-hand side `b` of `predict` (lines 279-301): semivariances between
the query point and its neighbors, the constraint entry `b[n] = 1`, and —
when the nugget effect is disabled — a forced `0` at every neighbor whose
distance to the query point is exactly zero. -/
def buildb (vario : ℚ → ℚ) (useNugget : Bool) (nd : List ℚ) : ℕ → ℚ := fun i =>
  if i < nd.length then
    if useNugget = false ∧ |nd.getD i 0| = 0 then 0
    else vario (nd.getD i 0)
  else 1

/-- Solve the assembled system of neighborhood size `n` and aggregate the
outputs: on success the prediction is `w[:n] · y[ni]` and the error term is
`w · b`; a singular system raises. -/
def solveAggregate (vario : ℚ → ℚ) (useNugget : Bool) (y : List ℚ)
    (A : ℕ → ℕ → ℚ) (nd : List ℚ) (ni : List ℕ) (n : ℕ) :
    Except KError (ℚ × ℚ) :=
  (solveSys (n + 1) A (buildb vario useNugget nd)).elim
    (Except.error KError.singularSystem)
    (fun w => Except.ok
      (∑ i : Fin n, w i.castSucc * y.getD (ni.getD i.val 0) 0,
       ∑ i : Fin (n + 1), w i * buildb vario useNugget nd i.val))

/-- The per-query-point body of the `predict` loop (lines 265-308): filter
the neighbors by the radius, skip the point (default result `(0, 0)`) when
the neighborhood is empty, otherwise assemble and solve the kriging system. -/
def predictPoint (vario : ℚ → ℚ) (distf : List ℚ → List ℚ → ℚ)
    (useNugget : Bool) (X : List (List ℚ)) (y : List ℚ)
    (radius : WithTop ℚ) (nbrs : List (WithTop ℚ × ℕ)) : Except KError (ℚ × ℚ) :=
  if (neighborhood radius nbrs).length = 0 then Except.ok (0, 0)
  else
    solveAggregate vario useNugget y
      (buildA vario distf useNugget (nlocsOf X (neighborhood radius nbrs)))
      (ndOf (neighborhood radius nbrs)) (niOf (neighborhood radius nbrs))
      (neighborhood radius nbrs).length

/-- Left-to-right effectful map over the query batch: the first raised
exception aborts the rest, exactly like the source's sequential loop. -/
def mapExcept (f : α → Except KError β) : List α → Except KError (List β)
  | [] => Except.ok []
  | a :: as =>
    match f a with
    | Except.error e => Except.error e
    | Except.ok b => (mapExcept f as).map (fun bs => b :: bs)

/-- The `predict` method (lines 197-316): input validation in source order
(feature count, `n_neighbor > 0`, `radius > 0`), then the k-d tree neighbor
query and the per-point solve loop.  The prediction and error arrays are
both returned (the source's `get_error` flag only selects which of the two
computed arrays are handed back). -/
def predict (P : kriging_ordinary) (Xq : List (List ℚ)) (k : ℕ)
    (radius : WithTop ℚ) : Except KError (List ℚ × List ℚ) :=
  if ¬ (Xq.all fun q => q.length == P.n_features) then
    Except.error KError.dimensionMismatch
  else if k = 0 then Except.error KError.invalidNeighborCount
  else if radius ≤ 0 then Except.error KError.invalidRadius
  else
    match P.fitted with
    | none => Except.error KError.notFitted
    | some (Xd, y) =>
      (mapExcept (fun q =>
          predictPoint P.variogram P.distance P.useNugget Xd y radius
            (kdtreeQueryPoint Xd P.distance k q)) Xq).map
        (fun rs => (rs.map Prod.fst, rs.map Prod.snd))

/-! Section: End-to-end scenario data (spec section 8)

Locations `[[0],[1],[2],[3]]`, values `[1,2,3,4]`, linear variogram with
parameters `[slope=1, nugget=0]`, nugget effect disabled. -/

/-- E2E observation locations. -/
def X4 : List (List ℚ) := [[0], [1], [2], [3]]

/-- E2E observation values. -/
def y4 : List ℚ := [1, 2, 3, 4]

/-- E2E variogram binding: fitted linear model with slope 1 and nugget 0. -/
def vlin10 : ℚ → ℚ := linearQ [1, 0]

/-- The fitted E2E predictor. -/
def e2eP : kriging_ordinary :=
  { variogram := vlin10, distance := cityblock, useNugget := false,
    n_features := 1, fitted := some (X4, y4) }

/-- Fitting the E2E data from the freshly constructed predictor yields
exactly the fitted E2E predictor. -/
theorem e2eP_fit : kfit (kriging_init vlin10 cityblock false) X4 y4 = some e2eP := rfl

/-! Section: Properties of the linear solve -/

/-- A successful solve certifies a nonsingular matrix. -/
theorem solveSys_det_ne_zero {n : ℕ} {A : ℕ → ℕ → ℚ} {b : ℕ → ℚ} {w : Fin n → ℚ}
    (h : solveSys n A b = some w) : (toMat n A).det ≠ 0 := by
  intro h0
  simp [solveSys, h0] at h

/-- A singular matrix makes the solve fail. -/
theorem solveSys_eq_none {n : ℕ} {A : ℕ → ℕ → ℚ} {b : ℕ → ℚ}
    (h0 : (toMat n A).det = 0) : solveSys n A b = none := by
  simp [solveSys, h0]

/-- Soundness: the returned vector solves the system. -/
theorem solveSys_sound {n : ℕ} {A : ℕ → ℕ → ℚ} {b : ℕ → ℚ} {w : Fin n → ℚ}
    (h : solveSys n A b = some w) : (toMat n A).mulVec w = toVec n b := by
  have hd := solveSys_det_ne_zero h
  have hw : w = (toMat n A).det⁻¹ • Matrix.cramer (toMat n A) (toVec n b) := by
    have h' := h
    rw [solveSys, if_neg hd] at h'
    exact (Option.some.injEq _ _ ▸ h').symm
  rw [hw, Matrix.mulVec_smul, Matrix.mulVec_cramer, smul_smul,
    inv_mul_cancel₀ hd, one_smul]

/-- Uniqueness: any solution of the system equals the returned vector. -/
theorem solveSys_unique {n : ℕ} {A : ℕ → ℕ → ℚ} {b : ℕ → ℚ} {w v : Fin n → ℚ}
    (h : solveSys n A b = some w) (hv : (toMat n A).mulVec v = toVec n b) :
    v = w := by
  have hd := solveSys_det_ne_zero h
  have hs := solveSys_sound h
  have key : ∀ u : Fin n → ℚ, (toMat n A).mulVec u = toVec n b →
      (toMat n A).det • u = (toMat n A).adjugate.mulVec (toVec n b) := by
    intro u hu
    calc (toMat n A).det • u
        = ((toMat n A).det • (1 : Matrix (Fin n) (Fin n) ℚ)).mulVec u := by
          rw [Matrix.smul_mulVec_assoc, Matrix.one_mulVec]
      _ = ((toMat n A).adjugate * toMat n A).mulVec u := by
          rw [Matrix.adjugate_mul]
      _ = (toMat n A).adjugate.mulVec ((toMat n A).mulVec u) := by
          rw [Matrix.mulVec_mulVec]
      _ = (toMat n A).adjugate.mulVec (toVec n b) := by rw [hu]
  have := (key v hv).trans (key w hs).symm
  exact smul_right_injective (Fin n → ℚ) hd this

/-! Section: Claim C2: weight normalization -/

/-- Claim C2: for every solved kriging system of neighborhood size `n > 0`,
the weights `w[0:n]` sum to 1: the Lagrange constraint row `A[n,:] = [1,…,1,0]`
with `b[n] = 1` forces it, under either nugget policy, because zeroing the
diagonal never touches the off-diagonal entries of the constraint row. -/
theorem C2_weight_normalization (vario : ℚ → ℚ) (distf : List ℚ → List ℚ → ℚ)
    (useNugget : Bool) (nlocs : List (List ℚ)) (nd : List ℚ) (n : ℕ)
    (w : Fin (n+1) → ℚ) (hL : nlocs.length = n) (hd : nd.length = n) (hn : 0 < n)
    (hs : solveSys (n+1) (buildA vario distf useNugget nlocs)
      (buildb vario useNugget nd) = some w) :
    ∑ i : Fin n, w i.castSucc = 1 := by
  have hrow := congrFun (solveSys_sound hs) (Fin.last n)
  simp only [Matrix.mulVec, Matrix.dotProduct, toMat, toVec, Matrix.of_apply,
    Fin.val_last] at hrow
  rw [Fin.sum_univ_castSucc] at hrow
  have hA1 : ∀ i : Fin n,
      buildA vario distf useNugget nlocs n (i.castSucc).val = 1 := by
    intro i
    have hne : (i.val : ℕ) ≠ n := Nat.ne_of_lt i.isLt
    simp [buildA, hL, Fin.coe_castSucc, hne]
  have hA0 : buildA vario distf useNugget nlocs n (Fin.last n).val = 0 := by
    simp [buildA, hL, Fin.val_last]
  have hb1 : buildb vario useNugget nd n = 1 := by
    simp [buildb, hd]
  rw [hA0, hb1] at hrow
  calc ∑ i : Fin n, w i.castSucc
      = ∑ i : Fin n, buildA vario distf useNugget nlocs n (i.castSucc).val *
          w i.castSucc := by
        refine Finset.sum_congr rfl fun i _ => ?_
        rw [hA1 i, one_mul]
    _ = 1 := by
        have := hrow
        linarith [this]

/-! Section: Claim C3: model value at distance zero -/

/-- Claim C3 counterexample: the claim "every model returns exactly the
nugget at d = 0" fails on the `circular` model, which evaluates
`NP.cos` (not an inverse cosine) at `d/range`: with parameters
[psill=1, range=1, nugget=0] it returns `2 - 2/π ≠ 0` at distance 0. -/
theorem C3_counterexample : circular [1, 1, 0] 0 ≠ 0 := by
  have hπ3 : (3:ℝ) < Real.pi := Real.pi_gt_three
  have hπ0 : (0:ℝ) < Real.pi := by linarith
  have h1 : 2 / Real.pi < 1 := (div_lt_one hπ0).mpr (by linarith)
  have hval : circular [1, 1, 0] 0 = 2 - 2 / Real.pi := by
    rw [circular]
    simp only [List.getD_cons_zero, List.getD_cons_succ]
    rw [if_pos (by norm_num : (0:ℝ) ≤ 1), zero_div, Real.cos_zero, div_one]
    have hs1 : Real.sqrt (1 - (0:ℝ) ^ (2:ℕ)) = 1 := by norm_num
    rw [hs1]
    ring
  rw [hval]
  intro h
  have : Real.pi = 1 := by
    field_simp at h
    linarith
  linarith

/-- Claim C3 amended: at distance 0 the linear, power (positive exponent),
gaussian, exponential, spherical (positive range) and hole-effect models all
return exactly the nugget parameter, but the circular model (positive range)
returns `psill * (2 - 2/π) + nugget` instead. -/
theorem C3_nugget_at_zero (slope scale expo psill range_ nugget : ℝ)
    (hexpo : 0 < expo) (hrange : 0 < range_) :
    linear [slope, nugget] 0 = nugget ∧
    power [scale, expo, nugget] 0 = nugget ∧
    gaussian [psill, range_, nugget] 0 = nugget ∧
    exponential [psill, range_, nugget] 0 = nugget ∧
    spherical [psill, range_, nugget] 0 = nugget ∧
    hole_effect [psill, range_, nugget] 0 = nugget ∧
    circular [psill, range_, nugget] 0 = psill * (2 - 2 / Real.pi) + nugget := by
  refine ⟨?_, ?_, ?_, ?_, ?_, ?_, ?_⟩
  · simp [linear]
  · simp [power, Real.zero_rpow hexpo.ne']
  · simp [gaussian]
  · simp [exponential]
  · rw [spherical]
    simp only [List.getD_cons_zero, List.getD_cons_succ]
    rw [if_pos hrange.le]
    norm_num
  · simp [hole_effect]
  · rw [circular]
    simp only [List.getD_cons_zero, List.getD_cons_succ]
    rw [if_pos hrange.le, zero_div, Real.cos_zero, div_one]
    have hs1 : Real.sqrt (1 - (0:ℝ) ^ (2:ℕ)) = 1 := by norm_num
    rw [hs1]
    ring

/-- Claim C3 witness: the amended statement at slope = scale = expo = psill
= range = 1, nugget = 0. -/
theorem C3_nugget_at_zero_witness :
    (0:ℝ) < 1 ∧ linear [1, 0] 0 = 0 ∧
      circular [1, 1, 0] 0 = 1 * (2 - 2 / Real.pi) + 0 :=
  ⟨by norm_num, (C3_nugget_at_zero 1 1 1 1 1 0 (by norm_num) (by norm_num)).1,
    (C3_nugget_at_zero 1 1 1 1 1 0 (by norm_num) (by norm_num)).2.2.2.2.2.2⟩

/-! Section: Claim C6: radius filtering -/

/-- Claim C6: neighbors at distance `≥ radius` are dropped before system
assembly and never contribute: the per-point computation is unchanged when
the raw neighbor list is replaced by its radius-filtered version, and every
neighbor surviving the filter has distance strictly below the radius. -/
theorem C6_radius_filtering (vario : ℚ → ℚ) (distf : List ℚ → List ℚ → ℚ)
    (useNugget : Bool) (X : List (List ℚ)) (y : List ℚ) (radius : WithTop ℚ)
    (nbrs : List (WithTop ℚ × ℕ)) :
    predictPoint vario distf useNugget X y radius nbrs =
      predictPoint vario distf useNugget X y radius (neighborhood radius nbrs) ∧
    ∀ p ∈ neighborhood radius nbrs, p.1 < radius := by
  have hNN : neighborhood radius (neighborhood radius nbrs) =
      neighborhood radius nbrs := by
    rw [neighborhood, List.filter_eq_self]
    intro a ha
    exact List.mem_filter.mp ha |>.2
  constructor
  · unfold predictPoint
    rw [hNN]
  · intro p hp
    exact of_decide_eq_true (List.mem_filter.mp hp |>.2)

/-- Claim C6 witness: a concrete neighbor of distance 1 survives a radius-2
filter and indeed has distance below 2. -/
theorem C6_radius_filtering_witness :
    predictPoint vlin10 cityblock false X4 y4 ((2:ℚ) : WithTop ℚ)
        [(((1:ℚ) : WithTop ℚ), 1)] =
      predictPoint vlin10 cityblock false X4 y4 ((2:ℚ) : WithTop ℚ)
        (neighborhood ((2:ℚ) : WithTop ℚ) [(((1:ℚ) : WithTop ℚ), 1)]) ∧
    (((1:ℚ) : WithTop ℚ), 1).1 < ((2:ℚ) : WithTop ℚ) :=
  ⟨(C6_radius_filtering vlin10 cityblock false X4 y4 ((2:ℚ) : WithTop ℚ)
      [(((1:ℚ) : WithTop ℚ), 1)]).1,
    (C6_radius_filtering vlin10 cityblock false X4 y4 ((2:ℚ) : WithTop ℚ)
      [(((1:ℚ) : WithTop ℚ), 1)]).2 (((1:ℚ) : WithTop ℚ), 1) (by decide)⟩

/-! Section: Claim C7: nugget policy on the assembled system -/

/-- Claim C7: with the nugget effect disabled the assembled matrix has an
all-zero diagonal (including the Lagrange corner) and every zero-distance
entry of `b` is forced to 0; with the nugget effect enabled both stand as
built from the variogram's semivariance values. -/
theorem C7_nugget_policy (vario : ℚ → ℚ) (distf : List ℚ → List ℚ → ℚ)
    (nlocs : List (List ℚ)) (nd : List ℚ) (i j : ℕ) :
    (i ≤ nlocs.length → buildA vario distf false nlocs i i = 0) ∧
    (i < nd.length → nd.getD i 0 = 0 → buildb vario false nd i = 0) ∧
    (i < nlocs.length → j < nlocs.length → buildA vario distf true nlocs i j =
      vario (distf (nlocs.getD i []) (nlocs.getD j []))) ∧
    (i < nd.length → buildb vario true nd i = vario (nd.getD i 0)) := by
  refine ⟨fun hi => ?_, fun hi h0 => ?_, fun hi hj => ?_, fun hi => ?_⟩
  · rcases Nat.lt_or_ge i nlocs.length with h | h
    · simp [buildA, h]
    · have he : i = nlocs.length := Nat.le_antisymm hi h
      simp [buildA, he]
  · simp only [buildb]
    rw [if_pos hi, if_pos]
    exact ⟨trivial, by rw [h0, abs_zero]⟩
  · simp [buildA, hi, hj]
  · simp [buildb, hi]

/-- Claim C7 witness: the policy evaluated on the concrete 2-neighbor E2E
system. -/
theorem C7_nugget_policy_witness :
    buildA vlin10 cityblock false [[0], [1]] 0 0 = 0 ∧
    buildb vlin10 false [0, 1] 0 = 0 ∧
    buildA vlin10 cityblock true [[0], [1]] 0 1 =
      vlin10 (cityblock [0] [1]) ∧
    buildb vlin10 true [0, 1] 0 = vlin10 ((0:ℚ)) :=
  ⟨(C7_nugget_policy vlin10 cityblock [[0], [1]] [0, 1] 0 1).1 (by norm_num),
    (C7_nugget_policy vlin10 cityblock [[0], [1]] [0, 1] 0 1).2.1 (by norm_num) rfl,
    (C7_nugget_policy vlin10 cityblock [[0], [1]] [0, 1] 0 1).2.2.1
      (by norm_num) (by norm_num),
    (C7_nugget_policy vlin10 cityblock [[0], [1]] [0, 1] 0 1).2.2.2 (by norm_num)⟩

/-! Section: Claim C8: input validation order and batch abort -/

/-- Claim C8: the three input validations of `predict` fire in source order
— feature-count mismatch, then `n_neighbor <= 0`, then `radius <= 0` — for
every predictor state (fitted or not, any stored data), so they are decided
before any neighbor search or solve, and each aborts the whole batch with an
error carrying no partial results. -/
theorem C8_validation (P : kriging_ordinary) (Xq : List (List ℚ)) (k : ℕ)
    (radius : WithTop ℚ) :
    (¬ (Xq.all fun q => q.length == P.n_features) →
      predict P Xq k radius = Except.error KError.dimensionMismatch) ∧
    ((Xq.all fun q => q.length == P.n_features) → k = 0 →
      predict P Xq k radius = Except.error KError.invalidNeighborCount) ∧
    ((Xq.all fun q => q.length == P.n_features) → k ≠ 0 → radius ≤ 0 →
      predict P Xq k radius = Except.error KError.invalidRadius) := by
  refine ⟨fun h => ?_, fun h hk => ?_, fun h hk hr => ?_⟩
  · rw [predict, if_pos h]
  · rw [predict, if_neg (not_not_intro h), if_pos hk]
  · rw [predict, if_neg (not_not_intro h), if_neg hk, if_pos hr]

/-- Claim C8 witness: a two-feature query row against the one-feature fitted
E2E predictor raises the dimension error, and on the valid-shape batch the
two other validations raise theirs. -/
theorem C8_validation_witness :
    predict e2eP [[0, 1]] 2 ⊤ = Except.error KError.dimensionMismatch ∧
    predict e2eP [[0]] 0 ⊤ = Except.error KError.invalidNeighborCount ∧
    predict e2eP [[0]] 2 0 = Except.error KError.invalidRadius :=
  ⟨(C8_validation e2eP [[0, 1]] 2 ⊤).1 (by decide),
    (C8_validation e2eP [[0]] 0 ⊤).2.1 (by decide) rfl,
    (C8_validation e2eP [[0]] 2 0).2.2 (by decide) (by decide) (by decide)⟩

/-! Section: Claim C9: predicting before any fit -/

/-- Claim C9 counterexample: on the just-constructed (unfitted) predictor,
whose frozen feature count is 0, the nonempty query `[[0]]` fails with the
dimension-mismatch error, not with the not-fitted error that the claim
promises for every predict call. -/
theorem C9_counterexample :
    predict (kriging_init vlin10 cityblock false) [[0]] 5 ⊤ =
      Except.error KError.dimensionMismatch ∧
    (Except.error KError.dimensionMismatch : Except KError (List ℚ × List ℚ)) ≠
      Except.error KError.notFitted := by
  constructor
  · rw [predict, if_pos (by decide)]
  · intro h
    exact absurd (Except.error.inj h) (by decide)

/-- Claim C9 amended: every predict call on an unfitted predictor fails with
some error of the taxonomy; since the unfitted feature count is 0, queries
with a nonempty feature row fail the dimension check, and only batches whose
rows all have zero features reach the data access and fail with the
not-fitted error. -/
theorem C9_not_fitted (vario : ℚ → ℚ) (distf : List ℚ → List ℚ → ℚ)
    (useNugget : Bool) (Xq : List (List ℚ)) (k : ℕ) (radius : WithTop ℚ) :
    (∃ e, predict (kriging_init vario distf useNugget) Xq k radius =
      Except.error e) ∧
    ((Xq.all fun q => q.length == (0:ℕ)) → k ≠ 0 → ¬ radius ≤ 0 →
      predict (kriging_init vario distf useNugget) Xq k radius =
        Except.error KError.notFitted) := by
  have hfit : (kriging_init vario distf useNugget).fitted = none := rfl
  have hnf : (kriging_init vario distf useNugget).n_features = 0 := rfl
  constructor
  · by_cases h1 : (Xq.all fun q =>
        q.length == (kriging_init vario distf useNugget).n_features)
    · by_cases h2 : k = 0
      · exact ⟨_, by rw [predict, if_neg (not_not_intro h1), if_pos h2]⟩
      · by_cases h3 : radius ≤ 0
        · exact ⟨_, by
            rw [predict, if_neg (not_not_intro h1), if_neg h2, if_pos h3]⟩
        · refine ⟨KError.notFitted, ?_⟩
          rw [predict, if_neg (not_not_intro h1), if_neg h2, if_neg h3]
          rfl
    · exact ⟨_, by rw [predict, if_pos h1]⟩
  · intro h1 h2 h3
    have h1' : (Xq.all fun q =>
        q.length == (kriging_init vario distf useNugget).n_features) := by
      rw [hnf]; exact h1
    rw [predict, if_neg (not_not_intro h1'), if_neg h2, if_neg h3]
    rfl

/-- Claim C9 witness: a batch with one zero-feature row, `k = 1` and default
radius fails with the not-fitted error on the unfitted predictor. -/
theorem C9_not_fitted_witness :
    (([[]] : List (List ℚ)).all fun q => q.length == (0:ℕ)) = true ∧
    predict (kriging_init vlin10 cityblock false) [[]] 1 ⊤ =
      Except.error KError.notFitted :=
  ⟨by decide,
    (C9_not_fitted vlin10 cityblock false [[]] 1 ⊤).2 (by decide)
      (by decide) (by decide)⟩

/-! Section: List access helpers -/

/-- Reading a mapped list below its length reads through the map. -/
theorem getD_map_of_lt {α β : Type} (f : α → β) (l : List α) {t : ℕ}
    (ht : t < l.length) (d : α) (d' : β) :
    (l.map f).getD t d' = f (l.getD t d) := by
  induction l generalizing t with
  | nil => simp at ht
  | cons a as ih =>
    cases t with
    | zero => rfl
    | succ t =>
      simp only [List.map_cons, List.getD_cons_succ]
      exact ih (by simpa using ht)

/-- A default-read below the length is a member. -/
theorem getD_mem {α : Type} (l : List α) {t : ℕ} (ht : t < l.length) (d : α) :
    l.getD t d ∈ l := by
  induction l generalizing t with
  | nil => simp at ht
  | cons a as ih =>
    cases t with
    | zero => exact List.mem_cons_self a as
    | succ t =>
      simp only [List.getD_cons_succ]
      exact List.mem_cons_of_mem a (ih (by simpa using ht))

/-! Section: Claim C10: k-d tree sentinel slots are harmless -/

/-- Claim C10: every neighbor surviving the radius filter of a k-d tree
query is a real observation — its index is in bounds and its distance is the
metric distance from the query point — because the sentinel slots produced
when fewer than `n_neighbor` observations exist carry distance `+∞`, and
`∞ < radius` holds for no radius (including the default `radius = ∞`). -/
theorem C10_sentinel_safety (Xd : List (List ℚ)) (distf : List ℚ → List ℚ → ℚ)
    (k : ℕ) (q : List ℚ) (radius : WithTop ℚ) :
    ∀ p ∈ neighborhood radius (kdtreeQueryPoint Xd distf k q),
      p.2 < Xd.length ∧ p.1 = ((distf q (Xd.getD p.2 [])) : WithTop ℚ) := by
  intro p hp
  have hmem := List.mem_filter.mp hp
  have hlt : p.1 < radius := of_decide_eq_true hmem.2
  have hin := hmem.1
  rw [kdtreeQueryPoint] at hin
  rcases List.mem_append.mp hin with h | h
  · have h1 := List.take_subset k _ h
    have h2 := (List.perm_insertionSort
      (fun a b : WithTop ℚ × ℕ => a.1 ≤ b.1) _).mem_iff.mp h1
    rcases List.mem_map.mp h2 with ⟨i, hi, rfl⟩
    exact ⟨List.mem_range.mp hi, rfl⟩
  · have hps := List.eq_of_mem_replicate h
    rw [hps] at hlt
    exact absurd hlt not_top_lt

/-! Section: Concrete evaluation of the E2E scenario -/

/-- Cityblock distance of one-feature points. -/
theorem cityblock_single (a b : ℚ) : cityblock [a] [b] = |a - b| := by
  simp [cityblock]

/-- Neighbor list returned by the k-d tree for the E2E query `[0]`, `k = 2`. -/
theorem kdtree_X4_q0 : kdtreeQueryPoint X4 cityblock 2 [0] =
    [(((0:ℚ) : WithTop ℚ), 0), (((1:ℚ) : WithTop ℚ), 1)] := by
  rw [kdtreeQueryPoint]
  norm_num [X4, cityblock, List.range_succ, List.insertionSort,
    List.orderedInsert, WithTop.coe_le_coe, List.replicate]

/-- Weight vector solving the E2E query-`[0]` system. -/
def wE2E : Fin 3 → ℚ := fun i => if i = 0 then 1 else 0

/-- The assembled E2E matrix for query `[0]` (neighbors `[[0]], [[1]]`). -/
theorem matA_E2E : toMat 3 (buildA vlin10 cityblock false [[0], [1]]) =
    !![0, 1, 1; 1, 0, 1; 1, 1, 0] := by
  ext i j
  fin_cases i <;> fin_cases j <;>
    norm_num [toMat, buildA, vlin10, linearQ, cityblock]

/-- The assembled E2E right-hand side for query `[0]` (distances `[0, 1]`). -/
theorem vecb_E2E : toVec 3 (buildb vlin10 false [0, 1]) = ![0, 1, 1] := by
  funext i
  fin_cases i <;> norm_num [toVec, buildb, vlin10, linearQ]

/-- The E2E query-`[0]` solve result. -/
theorem solve_E2E : solveSys 3 (buildA vlin10 cityblock false [[0], [1]])
    (buildb vlin10 false [0, 1]) = some wE2E := by
  have hdet : (!![0, 1, 1; 1, 0, 1; 1, 1, 0] : Matrix (Fin 3) (Fin 3) ℚ).det = 2 := by
    norm_num [Matrix.det_fin_three, Matrix.vecHead, Matrix.vecTail]
  rw [solveSys, matA_E2E, vecb_E2E, hdet, if_neg (by norm_num)]
  congr 1
  funext i
  fin_cases i <;>
    norm_num [wE2E, Matrix.cramer_apply, Matrix.updateColumn_apply,
      Matrix.det_fin_three, Matrix.vecHead, Matrix.vecTail, Fin.ext_iff,
      Pi.smul_apply, smul_eq_mul]

/-- The per-point E2E solve for query `[0]`: prediction exactly 1, error 0. -/
theorem predictPoint_E2E_q0 : predictPoint vlin10 cityblock false X4 y4 ⊤
    [(((0:ℚ) : WithTop ℚ), 0), (((1:ℚ) : WithTop ℚ), 1)] = Except.ok (1, 0) := by
  have hF : neighborhood ⊤ [(((0:ℚ) : WithTop ℚ), 0), (((1:ℚ) : WithTop ℚ), 1)] =
      [(((0:ℚ) : WithTop ℚ), 0), (((1:ℚ) : WithTop ℚ), 1)] := by decide
  have hnl : nlocsOf X4 [(((0:ℚ) : WithTop ℚ), 0), (((1:ℚ) : WithTop ℚ), 1)] =
      [[0], [1]] := rfl
  have hnd : ndOf [(((0:ℚ) : WithTop ℚ), 0), (((1:ℚ) : WithTop ℚ), 1)] =
      [0, 1] := rfl
  have hni : niOf [(((0:ℚ) : WithTop ℚ), 0), (((1:ℚ) : WithTop ℚ), 1)] =
      [0, 1] := rfl
  simp only [predictPoint, hF, hnl, hnd, hni, List.length_cons, List.length_nil]
  rw [if_neg (by norm_num)]
  show solveAggregate vlin10 false y4 (buildA vlin10 cityblock false [[0], [1]])
    [0, 1] [0, 1] 2 = Except.ok (1, 0)
  rw [solveAggregate, solve_E2E]
  simp only [Option.elim]
  norm_num [Fin.sum_univ_castSucc, Fin.sum_univ_two, wE2E, y4, buildb,
    vlin10, linearQ, Fin.ext_iff, Fin.castSucc_zero, Fin.castSucc_one,
    Fin.val_last]

/-- The full E2E predict call on query batch `[[0]]`, `k = 2`, default
radius: prediction exactly 1. -/
theorem predict_E2E_q0 : predict e2eP [[0]] 2 ⊤ = Except.ok ([1], [0]) := by
  have h1 : predictPoint vlin10 cityblock false X4 y4 ⊤
      (kdtreeQueryPoint X4 cityblock 2 [0]) = Except.ok (1, 0) := by
    rw [kdtree_X4_q0]
    exact predictPoint_E2E_q0
  rw [predict, if_neg (by decide), if_neg (by decide), if_neg (by decide)]
  show (mapExcept (fun q => predictPoint vlin10 cityblock false X4 y4 ⊤
      (kdtreeQueryPoint X4 cityblock 2 q)) [[0]]).map
    (fun rs => (rs.map Prod.fst, rs.map Prod.snd)) = Except.ok ([1], [0])
  simp only [mapExcept, h1, Except.map, List.map_cons, List.map_nil]

/-- Claim C2 witness: the solved E2E query-`[0]` system has weights summing
to 1. -/
theorem C2_weight_normalization_witness :
    solveSys 3 (buildA vlin10 cityblock false [[0], [1]])
      (buildb vlin10 false [0, 1]) = some wE2E ∧
    ∑ i : Fin 2, wE2E i.castSucc = 1 :=
  ⟨solve_E2E, C2_weight_normalization vlin10 cityblock false [[0], [1]] [0, 1]
    2 wE2E rfl rfl (by norm_num) solve_E2E⟩

/-! Section: Claim C1: exact interpolation at a coincident point -/

/-- Claim C1: with the nugget effect disabled, a query point coinciding with
observation `j` (a unique zero-distance neighbor at position `t` of its
radius-filtered neighborhood, consistent neighbor distances, symmetric
metric, solvable system) is predicted exactly as that observation's value. -/
theorem C1_exact_interpolation (vario : ℚ → ℚ)
    (distf : List ℚ → List ℚ → ℚ) (X : List (List ℚ)) (y : List ℚ)
    (radius : WithTop ℚ) (nbrs : List (WithTop ℚ × ℕ)) (q : List ℚ)
    (j t : ℕ) (pr er : ℚ)
    (hsym : ∀ a b, distf a b = distf b a)
    (hq : X.getD j [] = q)
    (ht : t < (neighborhood radius nbrs).length)
    (htv : (neighborhood radius nbrs).getD t (((0:ℚ) : WithTop ℚ), 0) =
      (((0:ℚ) : WithTop ℚ), j))
    (hcons : ∀ p ∈ neighborhood radius nbrs,
      p.1 = ((distf q (X.getD p.2 [])) : WithTop ℚ))
    (huniq : ∀ s, s < (neighborhood radius nbrs).length →
      ((neighborhood radius nbrs).getD s (((0:ℚ) : WithTop ℚ), 0)).1 =
        ((0:ℚ) : WithTop ℚ) → s = t)
    (hok : predictPoint vario distf false X y radius nbrs = Except.ok (pr, er)) :
    pr = y.getD j 0 := by
  have hok' := hok
  rw [predictPoint] at hok'
  set F := neighborhood radius nbrs with hFdef
  set n := F.length with hndef
  have hn0 : ¬ n = 0 := by omega
  rw [if_neg hn0, solveAggregate] at hok'
  have hlni : (niOf F).length = n := by simp [niOf, hndef]
  have hlnd : (ndOf F).length = n := by simp [ndOf, hndef]
  have hlnl : (nlocsOf X F).length = n := by simp [nlocsOf, niOf, hndef]
  have hnit : (niOf F).getD t 0 = j := by
    rw [niOf, getD_map_of_lt Prod.snd F ht (((0:ℚ) : WithTop ℚ), 0) 0, htv]
  have hndt : (ndOf F).getD t 0 = 0 := by
    rw [ndOf, getD_map_of_lt _ F ht (((0:ℚ) : WithTop ℚ), 0) 0, htv]
    rfl
  have hnlt : (nlocsOf X F).getD t [] = q := by
    rw [nlocsOf, getD_map_of_lt _ (niOf F) (by rw [hlni]; exact ht) 0
      ([] : List ℚ), hnit, hq]
  have hentry : ∀ i : ℕ, i < n →
      (ndOf F).getD i 0 = distf q (X.getD ((niOf F).getD i 0) []) := by
    intro i hi
    have hc := hcons _ (getD_mem F hi (((0:ℚ) : WithTop ℚ), 0))
    have hnd_i : (ndOf F).getD i 0 =
        (F.getD i (((0:ℚ) : WithTop ℚ), 0)).1.untop' 0 := by
      rw [ndOf, getD_map_of_lt _ F hi (((0:ℚ) : WithTop ℚ), 0) 0]
    have hni_i : (niOf F).getD i 0 = (F.getD i (((0:ℚ) : WithTop ℚ), 0)).2 := by
      rw [niOf, getD_map_of_lt _ F hi (((0:ℚ) : WithTop ℚ), 0) 0]
    rw [hnd_i, hni_i, hc, WithTop.untop'_coe]
  have hne0 : ∀ i : ℕ, i < n → i ≠ t → (ndOf F).getD i 0 ≠ 0 := by
    intro i hi hit h0
    apply hit
    apply huniq i hi
    have hc := hcons _ (getD_mem F hi (((0:ℚ) : WithTop ℚ), 0))
    rw [hc]
    rw [hentry i hi] at h0
    have hni_i : (niOf F).getD i 0 = (F.getD i (((0:ℚ) : WithTop ℚ), 0)).2 := by
      rw [niOf, getD_map_of_lt _ F hi (((0:ℚ) : WithTop ℚ), 0) 0]
    rw [hni_i] at h0
    exact_mod_cast congrArg (fun x : ℚ => (x : WithTop ℚ)) h0
  cases hsolve : solveSys (n + 1)
      (buildA vario distf false (nlocsOf X F))
      (buildb vario false (ndOf F)) with
  | none =>
    rw [hsolve] at hok'
    simp [Option.elim] at hok'
  | some w =>
    rw [hsolve] at hok'
    simp only [Option.elim] at hok'
    have hpe := Except.ok.inj hok'
    have hpr : (∑ i : Fin n, w i.castSucc *
        y.getD ((niOf F).getD i.val 0) 0) = pr := congrArg Prod.fst hpe
    have hcand : (toMat (n + 1)
        (buildA vario distf false (nlocsOf X F))).mulVec
        (fun j' : Fin (n + 1) =>
          if j' = (⟨t, Nat.lt_succ_of_lt ht⟩ : Fin (n + 1)) then 1 else 0) =
        toVec (n + 1) (buildb vario false (ndOf F)) := by
      funext i
      simp only [Matrix.mulVec, Matrix.dotProduct, toMat, Matrix.of_apply,
        toVec, mul_ite, mul_one, mul_zero]
      rw [Finset.sum_ite_eq' Finset.univ
        (⟨t, Nat.lt_succ_of_lt ht⟩ : Fin (n + 1))
        (fun j' : Fin (n + 1) =>
          buildA vario distf false (nlocsOf X F) i.val j'.val),
        if_pos (Finset.mem_univ _)]
      rcases Nat.lt_or_ge i.val n with hin | hin
      · rcases eq_or_ne i.val t with hit | hit
        · simp only [buildA, buildb, hlnl, hlnd]
          rw [if_pos ⟨hin, ht⟩, if_pos ⟨trivial, hit⟩, if_pos hin, if_pos]
          exact ⟨trivial, by rw [hit, hndt, abs_zero]⟩
        · have hnl_i : (nlocsOf X F).getD i.val [] =
              X.getD ((niOf F).getD i.val 0) [] := by
            rw [nlocsOf, getD_map_of_lt _ (niOf F) (by rw [hlni]; exact hin) 0
              ([] : List ℚ)]
          simp only [buildA, buildb, hlnl, hlnd]
          rw [if_pos ⟨hin, ht⟩, if_neg (fun hcond => hit hcond.2),
            if_pos hin,
            if_neg (fun hcond =>
              hne0 i.val hin hit (abs_eq_zero.mp hcond.2)),
            hnl_i, hnlt, hsym, hentry i.val hin]
      · have hieq : i.val = n := Nat.le_antisymm (Nat.lt_succ_iff.mp i.isLt) hin
        simp only [buildA, buildb, hlnl, hlnd, hieq]
        rw [if_neg (by omega), if_neg (by omega), if_neg (by omega)]
    have huw := solveSys_unique hsolve hcand
    rw [← hpr, ← huw]
    have hsum : ∀ i : Fin n,
        (if i.castSucc = (⟨t, Nat.lt_succ_of_lt ht⟩ : Fin (n + 1)) then (1:ℚ)
          else 0) * y.getD ((niOf F).getD i.val 0) 0 =
        (if i = (⟨t, ht⟩ : Fin n) then y.getD ((niOf F).getD i.val 0) 0
          else 0) := by
      intro i
      by_cases hc : i = (⟨t, ht⟩ : Fin n)
      · rw [if_pos hc, if_pos, one_mul]
        rw [hc]
        rfl
      · rw [if_neg hc, if_neg, zero_mul]
        intro hcs
        apply hc
        apply Fin.ext
        have := congrArg Fin.val hcs
        simpa using this
    rw [Finset.sum_congr rfl (fun i _ => hsum i),
      Finset.sum_ite_eq' Finset.univ (⟨t, ht⟩ : Fin n)
        (fun i : Fin n => y.getD ((niOf F).getD i.val 0) 0),
      if_pos (Finset.mem_univ _)]
    rw [hnit]

/-- The cityblock metric is symmetric. -/
theorem cityblock_comm (u v : List ℚ) : cityblock u v = cityblock v u := by
  induction u generalizing v with
  | nil => cases v <;> simp [cityblock]
  | cons a as ih =>
    cases v with
    | nil => simp [cityblock]
    | cons b bs =>
      simp only [cityblock, List.zipWith_cons_cons, List.sum_cons]
      rw [abs_sub_comm]
      have := ih bs
      simp only [cityblock] at this
      rw [this]

/-- Claim C1 witness: the E2E scenario — fit on `[[0],[1],[2],[3]]`,
values `[1,2,3,4]`, linear variogram `[1, 0]`, nugget disabled, `k = 2`,
`radius = ∞` — predicts exactly 1 at the coincident query `[0]`, and the
general theorem instantiates on its per-point solve. -/
theorem C1_exact_interpolation_witness :
    predict e2eP [[0]] 2 ⊤ = Except.ok ([1], [0]) ∧
    predictPoint vlin10 cityblock false X4 y4 ⊤
      [(((0:ℚ) : WithTop ℚ), 0), (((1:ℚ) : WithTop ℚ), 1)] = Except.ok (1, 0) ∧
    (1 : ℚ) = y4.getD 0 0 := by
  refine ⟨predict_E2E_q0, predictPoint_E2E_q0, ?_⟩
  refine C1_exact_interpolation vlin10 cityblock X4 y4 ⊤
    [(((0:ℚ) : WithTop ℚ), 0), (((1:ℚ) : WithTop ℚ), 1)] [0] 0 0 1 0
    cityblock_comm rfl (by decide) (by decide) ?_ ?_ predictPoint_E2E_q0
  · intro p hp
    have hp1 := (List.mem_filter.mp hp).1
    have hp' : p = (((0:ℚ) : WithTop ℚ), 0) ∨ p = (((1:ℚ) : WithTop ℚ), 1) := by
      simpa using hp1
    rcases hp' with rfl | rfl
    · norm_num [X4, cityblock]
    · norm_num [X4, cityblock]
  · intro s hs h0
    have hlen : (neighborhood ⊤ [(((0:ℚ) : WithTop ℚ), 0),
        (((1:ℚ) : WithTop ℚ), 1)]).length = 2 := by decide
    rw [hlen] at hs
    have hs2 : s = 0 ∨ s = 1 := by omega
    rcases hs2 with rfl | rfl
    · rfl
    · exact absurd h0 (by decide)

/-! Section: Claim C4: empty neighborhood is skipped, not an error -/

/-- Neighbor list returned by the k-d tree for the query `[10]`, `k = 2`. -/
theorem kdtree_X4_q10 : kdtreeQueryPoint X4 cityblock 2 [10] =
    [(((7:ℚ) : WithTop ℚ), 3), (((8:ℚ) : WithTop ℚ), 2)] := by
  have hmap : (List.range X4.length).map
      (fun i => (((cityblock [10] (X4.getD i [])) : WithTop ℚ), i)) =
      [(((10:ℚ) : WithTop ℚ), 0), (((9:ℚ) : WithTop ℚ), 1),
        (((8:ℚ) : WithTop ℚ), 2), (((7:ℚ) : WithTop ℚ), 3)] := by
    norm_num [X4, cityblock, List.range_succ]
  rw [kdtreeQueryPoint, hmap]
  decide

/-- Weight vector of the one-neighbor system. -/
def w1E : Fin 2 → ℚ := fun i => if i = 0 then 1 else 0

/-- One-neighbor system matrix. -/
theorem matA_1 : toMat 2 (buildA vlin10 cityblock false [[0]]) =
    !![0, 1; 1, 0] := by
  ext i j
  fin_cases i <;> fin_cases j <;>
    norm_num [toMat, buildA, vlin10, linearQ, cityblock]

/-- One-neighbor right-hand side. -/
theorem vecb_1 : toVec 2 (buildb vlin10 false [0]) = ![0, 1] := by
  funext i
  fin_cases i <;> norm_num [toVec, buildb, vlin10, linearQ]

/-- One-neighbor solve. -/
theorem solve_1 : solveSys 2 (buildA vlin10 cityblock false [[0]])
    (buildb vlin10 false [0]) = some w1E := by
  have hdet : (!![0, 1; 1, 0] : Matrix (Fin 2) (Fin 2) ℚ).det = -1 := by
    norm_num [Matrix.det_fin_two]
  rw [solveSys, matA_1, vecb_1, hdet, if_neg (by norm_num)]
  congr 1
  funext i
  fin_cases i <;>
    norm_num [w1E, Matrix.cramer_apply, Matrix.updateColumn_apply,
      Matrix.det_fin_two, Matrix.vecHead, Matrix.vecTail, Fin.ext_iff,
      Pi.smul_apply, smul_eq_mul]

/-- With radius `1/100`, the query `[10]` has an empty neighborhood and is
skipped with the default outputs. -/
theorem predictPoint_q10_r : predictPoint vlin10 cityblock false X4 y4
    ((1/100 : ℚ) : WithTop ℚ)
    [(((7:ℚ) : WithTop ℚ), 3), (((8:ℚ) : WithTop ℚ), 2)] = Except.ok (0, 0) := by
  have hc7 : ¬ (((7:ℚ) : WithTop ℚ) < ((1/100 : ℚ) : WithTop ℚ)) := by
    rw [WithTop.coe_lt_coe]
    norm_num
  have hc8 : ¬ (((8:ℚ) : WithTop ℚ) < ((1/100 : ℚ) : WithTop ℚ)) := by
    rw [WithTop.coe_lt_coe]
    norm_num
  have hF : neighborhood ((1/100 : ℚ) : WithTop ℚ)
      [(((7:ℚ) : WithTop ℚ), 3), (((8:ℚ) : WithTop ℚ), 2)] = [] := by
    simp only [neighborhood, List.filter, decide_eq_false hc7,
      decide_eq_false hc8]
  rw [predictPoint, hF]
  rfl

/-- With radius `1/100`, the query `[0]` keeps only its coincident neighbor
and is still interpolated exactly. -/
theorem predictPoint_q0_r : predictPoint vlin10 cityblock false X4 y4
    ((1/100 : ℚ) : WithTop ℚ)
    [(((0:ℚ) : WithTop ℚ), 0), (((1:ℚ) : WithTop ℚ), 1)] = Except.ok (1, 0) := by
  have hc0 : ((0:ℚ) : WithTop ℚ) < ((1/100 : ℚ) : WithTop ℚ) := by
    rw [WithTop.coe_lt_coe]
    norm_num
  have hc1 : ¬ (((1:ℚ) : WithTop ℚ) < ((1/100 : ℚ) : WithTop ℚ)) := by
    rw [WithTop.coe_lt_coe]
    norm_num
  have hF : neighborhood ((1/100 : ℚ) : WithTop ℚ)
      [(((0:ℚ) : WithTop ℚ), 0), (((1:ℚ) : WithTop ℚ), 1)] =
      [(((0:ℚ) : WithTop ℚ), 0)] := by
    simp only [neighborhood, List.filter, decide_eq_true hc0,
      decide_eq_false hc1]
  have hnl : nlocsOf X4 [(((0:ℚ) : WithTop ℚ), 0)] = [[0]] := rfl
  have hnd : ndOf [(((0:ℚ) : WithTop ℚ), 0)] = [0] := rfl
  have hni : niOf [(((0:ℚ) : WithTop ℚ), 0)] = [0] := rfl
  simp only [predictPoint, hF, hnl, hnd, hni, List.length_cons, List.length_nil]
  rw [if_neg (by norm_num)]
  show solveAggregate vlin10 false y4 (buildA vlin10 cityblock false [[0]])
    [0] [0] 1 = Except.ok (1, 0)
  rw [solveAggregate, solve_1]
  simp only [Option.elim]
  norm_num [Fin.sum_univ_castSucc, Fin.sum_univ_one, w1E, y4, buildb,
    vlin10, linearQ, Fin.ext_iff, Fin.castSucc_zero, Fin.val_last]

/-- Claim C4: a query point whose radius-filtered neighborhood is empty is
skipped — its prediction and error stay at the default `(0, 0)` — and in the
E2E batch `[[10], [0]]` with radius `1/100` the far point yields `(0, 0)`
with no exception while the rest of the batch is still computed. -/
theorem C4_empty_neighborhood :
    (∀ (vario : ℚ → ℚ) (distf : List ℚ → List ℚ → ℚ) (useNugget : Bool)
      (X : List (List ℚ)) (y : List ℚ) (radius : WithTop ℚ)
      (nbrs : List (WithTop ℚ × ℕ)), neighborhood radius nbrs = [] →
      predictPoint vario distf useNugget X y radius nbrs = Except.ok (0, 0)) ∧
    predict e2eP [[10], [0]] 2 ((1/100 : ℚ) : WithTop ℚ) =
      Except.ok ([0, 1], [0, 0]) := by
  constructor
  · intro vario distf useNugget X y radius nbrs h
    rw [predictPoint, h]
    rfl
  · rw [predict, if_neg (by decide), if_neg (by decide),
      if_neg (by norm_num [← WithTop.coe_zero, WithTop.coe_le_coe])]
    show (mapExcept (fun q => predictPoint vlin10 cityblock false X4 y4
        ((1/100 : ℚ) : WithTop ℚ)
        (kdtreeQueryPoint X4 cityblock 2 q)) [[10], [0]]).map
      (fun rs => (rs.map Prod.fst, rs.map Prod.snd)) = Except.ok ([0, 1], [0, 0])
    have h10 : predictPoint vlin10 cityblock false X4 y4
        ((1/100 : ℚ) : WithTop ℚ) (kdtreeQueryPoint X4 cityblock 2 [10]) =
        Except.ok (0, 0) := by
      rw [kdtree_X4_q10]
      exact predictPoint_q10_r
    have h0 : predictPoint vlin10 cityblock false X4 y4
        ((1/100 : ℚ) : WithTop ℚ) (kdtreeQueryPoint X4 cityblock 2 [0]) =
        Except.ok (1, 0) := by
      rw [kdtree_X4_q0]
      exact predictPoint_q0_r
    simp only [mapExcept, h10, h0, Except.map, List.map_cons, List.map_nil]

/-- Claim C4 witness: a lone neighbor at sentinel distance `∞` never passes
the radius filter, so the point is skipped with the default outputs. -/
theorem C4_empty_neighborhood_witness :
    neighborhood ⊤ [((⊤ : WithTop ℚ), 5)] = [] ∧
    predictPoint vlin10 cityblock false X4 y4 ⊤ [((⊤ : WithTop ℚ), 5)] =
      Except.ok (0, 0) :=
  ⟨by decide, C4_empty_neighborhood.1 vlin10 cityblock false X4 y4 ⊤
    [((⊤ : WithTop ℚ), 5)] (by decide)⟩

/-! Section: Claim C5: duplicate coincident neighbors and the singular system -/

/-- Variogram binding of a fitted linear model with slope 1 and nugget 1. -/
def vlin11 : ℚ → ℚ := linearQ [1, 1]

/-- Predictor fitted on two observations at the same location, nugget
effect disabled, bound to the nugget-1 linear variogram. -/
def dupP : kriging_ordinary :=
  { variogram := vlin11, distance := cityblock, useNugget := false,
    n_features := 1, fitted := some ([[0], [0]], [1, 2]) }

/-- Predictor of the E2E singular scenario: duplicate locations with the
nugget-0 linear variogram, nugget effect disabled. -/
def singP : kriging_ordinary :=
  { variogram := vlin10, distance := cityblock, useNugget := false,
    n_features := 1, fitted := some ([[0], [0], [1]], [1, 2, 3]) }

/-- Weight vector of the duplicate-neighbor system under the nugget-1
variogram. -/
def wDup : Fin 3 → ℚ := fun i => if i = 0 then 1/2 else if i = 1 then 1/2 else -(1/2)

/-- Neighbor list for query `[0]` over the duplicate two-point data. -/
theorem kdtree_dup : kdtreeQueryPoint [[0], [0]] cityblock 2 [0] =
    [(((0:ℚ) : WithTop ℚ), 0), (((0:ℚ) : WithTop ℚ), 1)] := by
  have hmap : (List.range ([[0], [0]] : List (List ℚ)).length).map
      (fun i => (((cityblock [0] (([[0], [0]] : List (List ℚ)).getD i [])) :
        WithTop ℚ), i)) =
      [(((0:ℚ) : WithTop ℚ), 0), (((0:ℚ) : WithTop ℚ), 1)] := by
    norm_num [cityblock, List.range_succ]
  rw [kdtreeQueryPoint, hmap]
  decide

/-- Neighbor list for query `[0]` over the E2E singular three-point data. -/
theorem kdtree_sing : kdtreeQueryPoint [[0], [0], [1]] cityblock 2 [0] =
    [(((0:ℚ) : WithTop ℚ), 0), (((0:ℚ) : WithTop ℚ), 1)] := by
  have hmap : (List.range ([[0], [0], [1]] : List (List ℚ)).length).map
      (fun i => (((cityblock [0] (([[0], [0], [1]] : List (List ℚ)).getD i [])) :
        WithTop ℚ), i)) =
      [(((0:ℚ) : WithTop ℚ), 0), (((0:ℚ) : WithTop ℚ), 1),
        (((1:ℚ) : WithTop ℚ), 2)] := by
    norm_num [cityblock, List.range_succ]
  rw [kdtreeQueryPoint, hmap]
  decide

/-- Duplicate-neighbor system matrix under the nugget-1 variogram: the
zeroed diagonal and the nonzero off-diagonal make it nonsingular. -/
theorem matA_dup : toMat 3 (buildA vlin11 cityblock false [[0], [0]]) =
    !![0, 1, 1; 1, 0, 1; 1, 1, 0] := by
  ext i j
  fin_cases i <;> fin_cases j <;>
    norm_num [toMat, buildA, vlin11, linearQ, cityblock]

/-- Duplicate-neighbor right-hand side (both distances forced to 0). -/
theorem vecb_dup : toVec 3 (buildb vlin11 false [0, 0]) = ![0, 0, 1] := by
  funext i
  fin_cases i <;> norm_num [toVec, buildb, vlin11, linearQ]

/-- The duplicate-neighbor solve succeeds under the nugget-1 variogram. -/
theorem solve_dup : solveSys 3 (buildA vlin11 cityblock false [[0], [0]])
    (buildb vlin11 false [0, 0]) = some wDup := by
  have hdet : (!![0, 1, 1; 1, 0, 1; 1, 1, 0] : Matrix (Fin 3) (Fin 3) ℚ).det = 2 := by
    norm_num [Matrix.det_fin_three, Matrix.vecHead, Matrix.vecTail]
  rw [solveSys, matA_dup, vecb_dup, hdet, if_neg (by norm_num)]
  congr 1
  funext i
  fin_cases i <;>
    norm_num [wDup, Matrix.cramer_apply, Matrix.updateColumn_apply,
      Matrix.det_fin_three, Matrix.vecHead, Matrix.vecTail, Fin.ext_iff,
      Pi.smul_apply, smul_eq_mul]

/-- The duplicate-neighbor query point solve returns a prediction, not an
exception, when the fitted variogram has a nonzero nugget parameter. -/
theorem predictPoint_dup : predictPoint vlin11 cityblock false [[0], [0]]
    [1, 2] ⊤ [(((0:ℚ) : WithTop ℚ), 0), (((0:ℚ) : WithTop ℚ), 1)] =
    Except.ok (3/2, -(1/2)) := by
  have hF : neighborhood ⊤ [(((0:ℚ) : WithTop ℚ), 0), (((0:ℚ) : WithTop ℚ), 1)] =
      [(((0:ℚ) : WithTop ℚ), 0), (((0:ℚ) : WithTop ℚ), 1)] := by decide
  have hnl : nlocsOf [[0], [0]]
      [(((0:ℚ) : WithTop ℚ), 0), (((0:ℚ) : WithTop ℚ), 1)] = [[0], [0]] := rfl
  have hnd : ndOf [(((0:ℚ) : WithTop ℚ), 0), (((0:ℚ) : WithTop ℚ), 1)] =
      [0, 0] := rfl
  have hni : niOf [(((0:ℚ) : WithTop ℚ), 0), (((0:ℚ) : WithTop ℚ), 1)] =
      [0, 1] := rfl
  simp only [predictPoint, hF, hnl, hnd, hni, List.length_cons, List.length_nil]
  rw [if_neg (by norm_num)]
  show solveAggregate vlin11 false [1, 2] (buildA vlin11 cityblock false [[0], [0]])
    [0, 0] [0, 1] 2 = Except.ok (3/2, -(1/2))
  rw [solveAggregate, solve_dup]
  simp only [Option.elim]
  norm_num [Fin.sum_univ_castSucc, Fin.sum_univ_two, wDup, buildb,
    vlin11, linearQ, Fin.ext_iff, Fin.castSucc_zero, Fin.castSucc_one,
    Fin.val_last]

/-- The full duplicate-neighbor predict call returns a result. -/
theorem predict_dup : predict dupP [[0]] 2 ⊤ =
    Except.ok ([3/2], [-(1/2)]) := by
  have h1 : predictPoint vlin11 cityblock false [[0], [0]] [1, 2] ⊤
      (kdtreeQueryPoint [[0], [0]] cityblock 2 [0]) = Except.ok (3/2, -(1/2)) := by
    rw [kdtree_dup]
    exact predictPoint_dup
  rw [predict, if_neg (by decide), if_neg (by decide), if_neg (by decide)]
  show (mapExcept (fun q => predictPoint vlin11 cityblock false [[0], [0]]
      [1, 2] ⊤ (kdtreeQueryPoint [[0], [0]] cityblock 2 q)) [[0]]).map
    (fun rs => (rs.map Prod.fst, rs.map Prod.snd)) = Except.ok ([3/2], [-(1/2)])
  simp only [mapExcept, h1, Except.map, List.map_cons, List.map_nil]

/-- Claim C5 counterexample: a neighborhood with two neighbors at identical
locations and the nugget effect disabled does NOT always produce a singular
system — with a fitted variogram whose value at distance 0 is nonzero
(nugget parameter 1), the zeroed diagonal makes the matrix nonsingular and
the batch succeeds. -/
theorem C5_counterexample : predict dupP [[0]] 2 ⊤ ≠
    Except.error KError.singularSystem := by
  rw [predict_dup]
  exact fun h => Except.noConfusion h

/-- Claim C5 amended: if the radius-filtered neighborhood holds two distinct
positions with identical observation locations, the nugget effect is
disabled, and the variogram vanishes at the self-distance (as for a fitted
nugget parameter of 0, e.g. the E2E linear variogram `[1, 0]`), then the
per-point solve fails with the singular-system error, and on a predict call
whose first query point triggers it the exception propagates unconditionally
and aborts the whole batch. -/
theorem C5_singular_system (vario : ℚ → ℚ) (distf : List ℚ → List ℚ → ℚ)
    (X : List (List ℚ)) (y : List ℚ) (radius : WithTop ℚ)
    (nbrs : List (WithTop ℚ × ℕ)) (s t : ℕ) (P : kriging_ordinary)
    (Xq : List (List ℚ)) (q0 : List ℚ) (rest : List (List ℚ)) (k : ℕ)
    (hs : s < (neighborhood radius nbrs).length)
    (ht : t < (neighborhood radius nbrs).length)
    (hst : s ≠ t)
    (heq : X.getD ((neighborhood radius nbrs).getD s
        (((0:ℚ) : WithTop ℚ), 0)).2 [] =
      X.getD ((neighborhood radius nbrs).getD t (((0:ℚ) : WithTop ℚ), 0)).2 [])
    (hv : vario (distf
      (X.getD ((neighborhood radius nbrs).getD s (((0:ℚ) : WithTop ℚ), 0)).2 [])
      (X.getD ((neighborhood radius nbrs).getD s
        (((0:ℚ) : WithTop ℚ), 0)).2 [])) = 0)
    (hPv : P.variogram = vario) (hPd : P.distance = distf)
    (hPu : P.useNugget = false) (hPf : P.fitted = some (X, y))
    (hXq : Xq = q0 :: rest)
    (hdim : (Xq.all fun r => r.length == P.n_features))
    (hk : ¬ k = 0) (hr : ¬ radius ≤ 0)
    (hnb : kdtreeQueryPoint X distf k q0 = nbrs) :
    predictPoint vario distf false X y radius nbrs =
      Except.error KError.singularSystem ∧
    predict P Xq k radius = Except.error KError.singularSystem := by
  set F := neighborhood radius nbrs with hFdef
  set n := F.length with hndef
  have hn0 : ¬ n = 0 := by omega
  have hlni : (niOf F).length = n := by simp [niOf, hndef]
  have hlnl : (nlocsOf X F).length = n := by simp [nlocsOf, niOf, hndef]
  have hnl_i : ∀ i : ℕ, i < n → (nlocsOf X F).getD i [] =
      X.getD ((F.getD i (((0:ℚ) : WithTop ℚ), 0)).2) [] := by
    intro i hi
    have h1 : (niOf F).getD i 0 = (F.getD i (((0:ℚ) : WithTop ℚ), 0)).2 := by
      rw [niOf, getD_map_of_lt _ F hi (((0:ℚ) : WithTop ℚ), 0) 0]
    rw [nlocsOf, getD_map_of_lt _ (niOf F) (by rw [hlni]; exact hi) 0
      ([] : List ℚ), h1]
  have hxs : (nlocsOf X F).getD s [] = (nlocsOf X F).getD t [] := by
    rw [hnl_i s hs, hnl_i t ht, heq]
  have hv' : vario (distf ((nlocsOf X F).getD s [])
      ((nlocsOf X F).getD s [])) = 0 := by
    rw [hnl_i s hs]
    exact hv
  have hrow : toMat (n + 1) (buildA vario distf false (nlocsOf X F))
      (⟨s, Nat.lt_succ_of_lt hs⟩ : Fin (n + 1)) =
      toMat (n + 1) (buildA vario distf false (nlocsOf X F))
      (⟨t, Nat.lt_succ_of_lt ht⟩ : Fin (n + 1)) := by
    funext m
    simp only [toMat, Matrix.of_apply, buildA, hlnl]
    rcases Nat.lt_or_ge m.val n with hm | hm
    · rcases eq_or_ne m.val s with hms | hms
      · rw [if_pos ⟨hs, hm⟩, if_pos ⟨trivial, hms.symm⟩,
          if_pos ⟨ht, hm⟩, if_neg (fun hcond => hst (hcond.2.trans hms).symm)]
        rw [hms, ← hxs, hv']
      · rcases eq_or_ne m.val t with hmt | hmt
        · rw [if_pos ⟨hs, hm⟩, if_neg (fun hcond => hms hcond.2.symm),
            if_pos ⟨ht, hm⟩, if_pos ⟨trivial, hmt.symm⟩]
          rw [hmt, ← hxs, hv']
        · rw [if_pos ⟨hs, hm⟩, if_neg (fun hcond => hms hcond.2.symm),
            if_pos ⟨ht, hm⟩, if_neg (fun hcond => hmt hcond.2.symm)]
          rw [hxs]
    · have hmn : m.val = n := Nat.le_antisymm (Nat.lt_succ_iff.mp m.isLt) hm
      rw [if_neg (fun hcond => by omega), if_neg (fun hcond => by omega),
        if_neg (fun hcond => by omega), if_neg (fun hcond => by omega)]
  have hst' : (⟨s, Nat.lt_succ_of_lt hs⟩ : Fin (n + 1)) ≠
      ⟨t, Nat.lt_succ_of_lt ht⟩ :=
    fun h => hst (by simpa [Fin.ext_iff] using h)
  have hdet0 : (toMat (n + 1) (buildA vario distf false (nlocsOf X F))).det = 0 :=
    Matrix.det_zero_of_row_eq hst' hrow
  have hnone : solveSys (n + 1) (buildA vario distf false (nlocsOf X F))
      (buildb vario false (ndOf F)) = none := solveSys_eq_none hdet0
  have hpt : predictPoint vario distf false X y radius nbrs =
      Except.error KError.singularSystem := by
    rw [predictPoint, if_neg hn0, solveAggregate, hnone]
    rfl
  refine ⟨hpt, ?_⟩
  rw [predict, if_neg (not_not_intro hdim), if_neg hk, if_neg hr, hPf]
  show (mapExcept (fun q => predictPoint P.variogram P.distance P.useNugget
      X y radius (kdtreeQueryPoint X P.distance k q)) Xq).map
    (fun rs => (rs.map Prod.fst, rs.map Prod.snd)) =
    Except.error KError.singularSystem
  rw [hPv, hPd, hPu, hXq]
  simp only [mapExcept, hnb, hpt, Except.map]

/-- Claim C5 witness: the E2E singular scenario — two observations at the
same location, nugget-0 linear variogram, nugget effect disabled — fails its
per-point solve with the singular-system error, and the whole batch
`[[0], [1]]` aborts with it. -/
theorem C5_singular_system_witness :
    predictPoint vlin10 cityblock false [[0], [0], [1]] [1, 2, 3] ⊤
      [(((0:ℚ) : WithTop ℚ), 0), (((0:ℚ) : WithTop ℚ), 1)] =
      Except.error KError.singularSystem ∧
    predict singP [[0], [1]] 2 ⊤ = Except.error KError.singularSystem :=
  C5_singular_system vlin10 cityblock [[0], [0], [1]] [1, 2, 3] ⊤
    [(((0:ℚ) : WithTop ℚ), 0), (((0:ℚ) : WithTop ℚ), 1)] 0 1 singP
    [[0], [1]] [0] [[1]] 2 (by decide) (by decide) (by decide) (by decide)
    (by norm_num [vlin10, linearQ, cityblock]) rfl rfl rfl rfl rfl
    (by decide) (by decide) (by decide) kdtree_sing

/-- Claim C10 witness: a one-point observation set queried with `k = 3`
yields two sentinel slots, both removed by the default-radius filter; the
surviving neighbor is in bounds with the true metric distance. -/
theorem C10_sentinel_safety_witness :
    ((((1:ℚ) : WithTop ℚ), 0) ∈
      neighborhood ⊤ (kdtreeQueryPoint [[0]] cityblock 3 [1])) ∧
    ((((1:ℚ) : WithTop ℚ), 0).2 < ([[0]] : List (List ℚ)).length ∧
      (((1:ℚ) : WithTop ℚ), 0).1 =
        ((cityblock [1] (([[0]] : List (List ℚ)).getD
          (((1:ℚ) : WithTop ℚ), 0).2 [])) : WithTop ℚ)) := by
  have hk : kdtreeQueryPoint [[0]] cityblock 3 [1] =
      [(((1:ℚ) : WithTop ℚ), 0), (⊤, 1), (⊤, 1)] := by
    have hmap : (List.range ([[0]] : List (List ℚ)).length).map
        (fun i => (((cityblock [1] (([[0]] : List (List ℚ)).getD i [])) :
          WithTop ℚ), i)) = [(((1:ℚ) : WithTop ℚ), 0)] := by
      norm_num [cityblock, List.range_succ]
    rw [kdtreeQueryPoint, hmap]
    decide
  have hmem : (((1:ℚ) : WithTop ℚ), 0) ∈
      neighborhood ⊤ (kdtreeQueryPoint [[0]] cityblock 3 [1]) := by
    rw [hk]
    decide
  exact ⟨hmem, C10_sentinel_safety [[0]] cityblock 3 [1] ⊤ _ hmem⟩

/-- Claim C1 counterexample: exact interpolation fails as literally stated
when the query location carries duplicate observations and the variogram is
nonzero at distance 0.  On `dupP` (observations `[[0], [0]]` with values
`[1, 2]`, nugget effect disabled, nugget-1 linear variogram) the query `[0]`
coincides with observation 0 — distance 0, included in its neighborhood,
system solvable — yet the prediction is `3/2`, not that observation's
value 1. -/
theorem C1_counterexample :
    ((((0:ℚ) : WithTop ℚ), 0) ∈
      neighborhood ⊤ (kdtreeQueryPoint [[0], [0]] cityblock 2 [0])) ∧
    predict dupP [[0]] 2 ⊤ = Except.ok ([3/2], [-(1/2)]) ∧
    (3/2 : ℚ) ≠ ([1, 2] : List ℚ).getD 0 0 := by
  refine ⟨?_, predict_dup, by norm_num [List.getD_cons_zero]⟩
  rw [kdtree_dup]
  decide

end KrigingPy
